import Mathlib

/-
  Shallow embedding of the storage core of the Write-Optimized Vector Database:
  the Latest-By-ID directory (src/cpp/storage/latest-by-id.h) and the sharded
  Message Buffer (src/cpp/storage/buffer/msg-buf.h), over the data model of
  include/woved/types.h.

  Machine integers (uint64_t epochs/hashes, size_t counters) are modelled as
  Nat: every operation of the embedded code only stores, compares, increments
  or decrements them, and decrements only ever undo earlier increments on the
  states the claims evaluate, so no wraparound is reachable.  std::unordered_map
  is modelled as an association list with unique keys maintained by setKey;
  std::deque as a List whose head is the front.  Locks, atomics and condition
  variables serialize the C++ operations; the embedding is the resulting
  sequential semantics.
-/

set_option maxHeartbeats 1000000

/-- `VectorLocation::LocationType` (latest-by-id.h): where the latest version
of a vector currently lives. -/
inductive LocationType
  | BUFFER
  | SEGMENT
  | DELETED
  deriving DecidableEq, Repr

/-- `VectorLocation` (latest-by-id.h): location record stored per id.
`local_id` is left default-initialized (0) where the C++ leaves it unset. -/
structure VectorLocation where
  type : LocationType
  segment_id : String := ""
  local_id : Nat := 0
  timestamp : Nat := 0
  epoch : Nat := 0
  tombstone : Bool := false
  deriving DecidableEq, Repr

/-- `LatestByIdMap::Entry` (latest-by-id.h).  The C++ `std::atomic<uint64_t>
version` is a plain Nat under the map's exclusive lock. -/
structure Entry where
  id : String
  id_hash : Nat
  location : VectorLocation
  version : Nat
  deriving DecidableEq, Repr

/-- State of a `LatestByIdMap` (latest-by-id.h): the primary `id_map_`
(id hash to entry), the secondary `id_to_hash_` index, the three statistics
counters and the global version counter. -/
structure LatestByIdMap where
  id_map : List (Nat × Entry)
  id_to_hash : List (String × Nat)
  buffer_count : Nat
  segment_count : Nat
  tombstone_count : Nat
  global_version : Nat
  deriving DecidableEq, Repr

/-- `map[k] = v` on an association list with unique keys: replace the binding
of `k` if present, otherwise append a new binding. -/
def setKey {α β : Type} [BEq α] (k : α) (v : β) : List (α × β) → List (α × β)
  | [] => [(k, v)]
  | (k', v') :: rest => if k' == k then (k, v) :: rest else (k', v') :: setKey k v rest

/-- `map.erase(k)` on an association list with unique keys. -/
def eraseKey {α β : Type} [BEq α] (k : α) : List (α × β) → List (α × β)
  | [] => []
  | (k', v') :: rest => if k' == k then rest else (k', v') :: eraseKey k rest

namespace LatestByIdMap

/-- The freshly constructed `LatestByIdMap` (all maps empty, counters zero). -/
def empty : LatestByIdMap :=
  { id_map := [], id_to_hash := [], buffer_count := 0, segment_count := 0,
    tombstone_count := 0, global_version := 0 }

/-- `LatestByIdMap::updateEntry` (latest-by-id.h lines 284–287): overwrite the
entry's location unconditionally and stamp it with the next global version.
`g` is the current value of `global_version_`; the caller increments it. -/
def updateEntry (g : Nat) (e : Entry) (location : VectorLocation) : Entry :=
  { e with location := location, version := g }

/-- `LatestByIdMap::upsert` (latest-by-id.h lines 110–157): if the hash is
present, adjust the statistics counters for the outgoing location and
overwrite it via `updateEntry`; otherwise insert a fresh entry and index its
string id.  In both cases the counters for the incoming location are then
incremented. -/
def upsert (m : LatestByIdMap) (id : String) (id_hash : Nat)
    (location : VectorLocation) : LatestByIdMap :=
  match m.id_map.lookup id_hash with
  | some e =>
    let bc := if e.location.type = .BUFFER then m.buffer_count - 1 else m.buffer_count
    let sc := if e.location.type = .SEGMENT then m.segment_count - 1 else m.segment_count
    let tc := if e.location.tombstone then m.tombstone_count - 1 else m.tombstone_count
    let e' := updateEntry m.global_version e location
    { m with
      id_map := setKey id_hash e' m.id_map,
      global_version := m.global_version + 1,
      buffer_count := if location.type = .BUFFER then bc + 1 else bc,
      segment_count := if location.type = .SEGMENT then sc + 1 else sc,
      tombstone_count := if location.tombstone then tc + 1 else tc }
  | none =>
    let e' : Entry := { id := id, id_hash := id_hash, location := location,
                        version := m.global_version }
    { m with
      id_map := setKey id_hash e' m.id_map,
      id_to_hash := setKey id id_hash m.id_to_hash,
      global_version := m.global_version + 1,
      buffer_count := if location.type = .BUFFER then m.buffer_count + 1 else m.buffer_count,
      segment_count := if location.type = .SEGMENT then m.segment_count + 1 else m.segment_count,
      tombstone_count := if location.tombstone then m.tombstone_count + 1 else m.tombstone_count }

/-- `LatestByIdMap::markDeleted` (latest-by-id.h): upsert a tombstoned
DELETED location. -/
def markDeleted (m : LatestByIdMap) (id : String) (id_hash : Nat)
    (timestamp epoch : Nat) : LatestByIdMap :=
  upsert m id id_hash
    { type := .DELETED, timestamp := timestamp, epoch := epoch, tombstone := true }

/-- `LatestByIdMap::getLatestByHash` (latest-by-id.h lines 181–190). -/
def getLatestByHash (m : LatestByIdMap) (id_hash : Nat) : Option VectorLocation :=
  match m.id_map.lookup id_hash with
  | some e => some e.location
  | none => none

/-- `LatestByIdMap::getLatest` (latest-by-id.h lines 170–179). -/
def getLatest (m : LatestByIdMap) (id : String) : Option VectorLocation :=
  match m.id_to_hash.lookup id with
  | some h => getLatestByHash m h
  | none => none

/-- `LatestByIdMap::exists` (latest-by-id.h lines 192–195): present and not
tombstoned. -/
def existsId (m : LatestByIdMap) (id : String) : Bool :=
  match getLatest m id with
  | some location => !location.tombstone
  | none => false

/-- `LatestByIdMap::existsByHash` (latest-by-id.h lines 197–200). -/
def existsByHash (m : LatestByIdMap) (id_hash : Nat) : Bool :=
  match getLatestByHash m id_hash with
  | some location => !location.tombstone
  | none => false

/-- Loop body of `LatestByIdMap::moveToSegment` (latest-by-id.h lines
225–245): look the id up in both indexes; if found, adjust the buffer/segment
counters when the previous location was BUFFER, and unconditionally rewrite
type, segment_id and epoch of the stored location. -/
def moveToSegmentStep (segment_id : String) (epoch : Nat)
    (acc : LatestByIdMap) (id : String) : LatestByIdMap :=
  match acc.id_to_hash.lookup id with
  | none => acc
  | some h =>
    match acc.id_map.lookup h with
    | none => acc
    | some e =>
      let bc := if e.location.type = .BUFFER then acc.buffer_count - 1 else acc.buffer_count
      let sc := if e.location.type = .BUFFER then acc.segment_count + 1 else acc.segment_count
      let e' : Entry :=
        { e with
          location := { e.location with
                        type := .SEGMENT, segment_id := segment_id, epoch := epoch },
          version := acc.global_version }
      { acc with
        id_map := setKey h e' acc.id_map,
        buffer_count := bc,
        segment_count := sc,
        global_version := acc.global_version + 1 }

/-- `LatestByIdMap::moveToSegment` (latest-by-id.h lines 220–246). -/
def moveToSegment (m : LatestByIdMap) (ids : List String)
    (segment_id : String) (epoch : Nat) : LatestByIdMap :=
  ids.foldl (moveToSegmentStep segment_id epoch) m

end LatestByIdMap

-- Association-list lemmas used throughout.

theorem lookup_setKey {α β : Type} [BEq α] [LawfulBEq α]
    (k k' : α) (v : β) (l : List (α × β)) :
    (setKey k v l).lookup k' = if k' == k then some v else l.lookup k' := by
  induction l with
  | nil =>
    simp only [setKey, List.lookup]
    cases h : k' == k <;> simp [h]
  | cons p rest ih =>
    obtain ⟨a, b⟩ := p
    simp only [setKey]
    by_cases hak : (a == k) = true
    · rw [if_pos hak]
      have ha : a = k := eq_of_beq hak
      subst ha
      simp only [List.lookup]
      cases h : k' == a <;> simp [h]
    · rw [if_neg hak]
      simp only [List.lookup]
      cases h : k' == a
      · simpa [h] using ih
      · have ha : k' = a := eq_of_beq h
        subst ha
        have hkk : (k' == k) = false := by
          cases hkk : (k' == k) with
          | false => rfl
          | true => exact absurd hkk hak
        simp [hkk]

theorem lookup_setKey_self {α β : Type} [BEq α] [LawfulBEq α]
    (k : α) (v : β) (l : List (α × β)) :
    (setKey k v l).lookup k = some v := by
  simp [lookup_setKey]

theorem lookup_setKey_ne {α β : Type} [BEq α] [LawfulBEq α]
    (k k' : α) (v : β) (l : List (α × β)) (h : k' ≠ k) :
    (setKey k v l).lookup k' = l.lookup k' := by
  simp [lookup_setKey, h]

-- ===========================================================================
-- Message Buffer (src/cpp/storage/buffer/msg-buf.h) and its data model
-- (include/woved/types.h).
-- ===========================================================================

/-- `OperationType` (types.h). -/
inductive OperationType
  | INSERT
  | UPSERT
  | DELETE
  deriving DecidableEq, Repr

/-- `VectorEntry` (types.h).  Vector components are floats; no embedded
operation reads their values, only the vector's length. -/
structure VectorEntry where
  id : String
  id_hash : Nat
  vector : List Float
  tenant : String
  tenant_hash : Nat := 0
  namespace_id : String
  namespace_hash : Nat := 0
  tags : List Nat
  created_at : Nat := 0
  updated_at : Nat := 0
  centroid_id : Nat := 0
  deleted : Bool := false
  deriving Repr

/-- `BTreeMessage` (types.h). -/
structure BTreeMessage where
  op : OperationType
  entry : VectorEntry
  epoch : Nat
  timestamp : Nat
  deriving Repr

/-- `MessageBuffer::Config` (msg-buf.h) with its source defaults. -/
structure Config where
  max_bytes : Nat := 17179869184
  shard_count : Nat := 16
  flush_threshold_bytes : Nat := 134217728
  dedupe_enabled : Bool := true
  deriving Repr

/-- `MessageBuffer::Shard` (msg-buf.h): a FIFO deque of messages (head =
front), byte and count counters, and the per-shard dedup map from id hash to
the latest message (the C++ stores a pointer; the embedding stores the
pointed-to message value). -/
structure Shard where
  messages : List BTreeMessage := []
  bytes : Nat := 0
  count : Nat := 0
  latest_map : List (Nat × BTreeMessage) := []
  deriving Repr

/-- State of a `MessageBuffer` (msg-buf.h): configuration, shards, the
optional shared `LatestByIdMap`, and the global counters. -/
structure MessageBuffer where
  config : Config
  shards : List Shard
  latest_by_id : Option LatestByIdMap
  total_bytes : Nat := 0
  total_messages : Nat := 0
  dedupe_count : Nat := 0
  deriving Repr

namespace MessageBuffer

/-- The `MessageBuffer` constructor (msg-buf.h lines 97–109): `shard_count`
fresh shards, zero counters. -/
def mkBuffer (config : Config) (latest_by_id : Option LatestByIdMap) : MessageBuffer :=
  { config := config, shards := List.replicate config.shard_count {},
    latest_by_id := latest_by_id }

/-- `sizeof(BTreeMessage)`: the fixed per-record overhead of
`MessageBuffer::estimateSize`.  The exact value is platform-defined; the
embedding fixes one representative constant (no claim depends on its value). -/
def sizeofBTreeMessage : Nat := 216

/-- `MessageBuffer::estimateSize` (msg-buf.h lines 300–308):
`sizeof(BTreeMessage)` + vector bytes (`sizeof(float)` = 4) + the byte lengths
of the id, tenant and namespace strings + tag bytes (`sizeof(TagId)` = 4). -/
def estimateSize (msg : BTreeMessage) : Nat :=
  sizeofBTreeMessage
    + msg.entry.vector.length * 4
    + msg.entry.id.length
    + msg.entry.tenant.length
    + msg.entry.namespace_id.length
    + msg.entry.tags.length * 4

/-- `MessageBuffer::getShardIndex` (msg-buf.h lines 85–87). -/
def getShardIndex (config : Config) (hash : Nat) : Nat :=
  hash % config.shard_count

/-- The predicate of `MessageBuffer::waitForSpace` (msg-buf.h lines 277–282):
the condition-variable wait returns the predicate's value after the timeout. -/
def waitForSpace (buf : MessageBuffer) : Bool :=
  buf.total_bytes < buf.config.max_bytes

/-- `MessageBuffer::append` (msg-buf.h lines 116–166), sequential semantics.

Backpressure: the source loops `while total_bytes + msg_size > max_bytes`
around `waitForSpace(100ms)`.  In the sequential semantics nothing changes the
counters during the wait, so when the guard fails the message is never
admitted: either `waitForSpace` times out with its predicate false and the
function returns (`return;` after the warning — the C++ returns void, so no
error reaches the caller), or the predicate holds and the loop re-tests the
unchanged guard forever.  Both non-admitting outcomes leave the buffer
unmodified and are embedded as returning the state unchanged.

When admitted: in-shard dedup only bumps `dedupe_count_` when a prior entry
for the hash exists (the prior message is not removed or marked — see the
source note "In production, would properly remove from deque"); the dedup map
is pointed at the new message; the message is pushed to the back of the FIFO;
counters grow; and `latest_by_id_->upsert` records a BUFFER location for
read-your-writes (tombstone = whether the op is DELETE). -/
def append (buf : MessageBuffer) (hash : Nat) (msg : BTreeMessage) : MessageBuffer :=
  let msg_size := estimateSize msg
  if buf.total_bytes + msg_size > buf.config.max_bytes then
    buf
  else
    match buf.shards[getShardIndex buf.config hash]? with
    | none => buf
    | some shard =>
      let dedupe_count' :=
        if buf.config.dedupe_enabled ∧ msg.op ≠ .DELETE ∧ (shard.latest_map.lookup hash).isSome
        then buf.dedupe_count + 1 else buf.dedupe_count
      let latest_map' :=
        if buf.config.dedupe_enabled then setKey hash msg shard.latest_map
        else shard.latest_map
      let shard' : Shard :=
        { messages := shard.messages ++ [msg], bytes := shard.bytes + msg_size,
          count := shard.count + 1, latest_map := latest_map' }
      let latest_by_id' :=
        match buf.latest_by_id with
        | some m =>
          some (m.upsert msg.entry.id hash
            { type := .BUFFER, timestamp := msg.timestamp, epoch := msg.epoch,
              tombstone := msg.op = .DELETE })
        | none => none
      { buf with
        shards := buf.shards.set (getShardIndex buf.config hash) shard',
        total_bytes := buf.total_bytes + msg_size,
        total_messages := buf.total_messages + 1,
        dedupe_count := dedupe_count',
        latest_by_id := latest_by_id' }

/-- Per-shard body of `MessageBuffer::sliceForLeaf` (msg-buf.h lines
174–185): while the result is below `max_batch`, take
`to_take = min(max_batch - result.size(), shard.messages.size())` items —
but the inner loop reads `shard->messages.front()` each time without popping
("Not removing yet, wait for evict()"), so it appends `to_take` copies of the
front message. -/
def sliceStep (max_batch : Nat) (result : List BTreeMessage) (shard : Shard) :
    List BTreeMessage :=
  if result.length < max_batch then
    let to_take := min (max_batch - result.length) shard.messages.length
    match shard.messages with
    | [] => result
    | front :: _ => result ++ List.replicate to_take front
  else result

/-- `MessageBuffer::sliceForLeaf` (msg-buf.h lines 168–188): round-robin over
the shards; `leaf_id` is never consulted. -/
def sliceForLeaf (buf : MessageBuffer) (leaf_id : Nat) (max_batch : Nat) :
    List BTreeMessage :=
  buf.shards.foldl (sliceStep max_batch) []

/-- Per-message body of `MessageBuffer::evict` (msg-buf.h lines 193–214):
route by `msg.entry.id_hash`, pop the shard's front message (if any),
subtract the front's estimated size from the counters, and erase the dedup
binding for the hash. -/
def evictStep (b : MessageBuffer) (msg : BTreeMessage) : MessageBuffer :=
  match b.shards[getShardIndex b.config msg.entry.id_hash]? with
  | none => b
  | some shard =>
    match shard.messages with
    | [] => b
    | front :: rest =>
      let msg_size := estimateSize front
      let latest_map' :=
        if b.config.dedupe_enabled then eraseKey msg.entry.id_hash shard.latest_map
        else shard.latest_map
      let shard' : Shard :=
        { messages := rest, bytes := shard.bytes - msg_size,
          count := shard.count - 1, latest_map := latest_map' }
      { b with
        shards := b.shards.set (getShardIndex b.config msg.entry.id_hash) shard',
        total_bytes := b.total_bytes - msg_size,
        total_messages := b.total_messages - 1 }

/-- `MessageBuffer::evict` (msg-buf.h lines 190–218). -/
def evict (buf : MessageBuffer) (flushed : List BTreeMessage) : MessageBuffer :=
  flushed.foldl evictStep buf

/-- Per-shard body of `MessageBuffer::scanForQuery` (msg-buf.h lines
234–258), threading the `(results, scanned)` state: stop once `scanned`
reaches `max_scan`; count every examined message; skip DELETE messages; skip
on tenant mismatch only when the query tenant is non-empty, likewise for the
namespace; skip when the query tag set is non-empty and no query tag occurs
in the entry's tags; otherwise emit the entry. -/
def scanShard (tenant ns : String) (tags : List Nat) (max_scan : Nat) :
    List BTreeMessage → List VectorEntry × Nat → List VectorEntry × Nat
  | [], st => st
  | msg :: rest, (results, scanned) =>
    if scanned ≥ max_scan then (results, scanned)
    else
      let scanned' := scanned + 1
      if msg.op = .DELETE then
        scanShard tenant ns tags max_scan rest (results, scanned')
      else if tenant ≠ "" ∧ msg.entry.tenant ≠ tenant then
        scanShard tenant ns tags max_scan rest (results, scanned')
      else if ns ≠ "" ∧ msg.entry.namespace_id ≠ ns then
        scanShard tenant ns tags max_scan rest (results, scanned')
      else if tags ≠ [] ∧ ¬ tags.any (fun tag => msg.entry.tags.contains tag) then
        scanShard tenant ns tags max_scan rest (results, scanned')
      else
        scanShard tenant ns tags max_scan rest (results ++ [msg.entry], scanned')

/-- `MessageBuffer::scanForQuery` (msg-buf.h lines 220–262).  The query
vector itself is never consulted (scoring is the caller's responsibility). -/
def scanForQuery (buf : MessageBuffer) (query : List Float)
    (tenant ns : String) (tags : List Nat) (max_scan : Nat) : List VectorEntry :=
  (buf.shards.foldl
    (fun st shard => scanShard tenant ns tags max_scan shard.messages st)
    ([], 0)).1

/-- `MessageBuffer::Stats` (msg-buf.h). -/
structure Stats where
  message_count : Nat
  bytes_used : Nat
  dedupe_count : Nat
  shard_sizes : List Nat
  deriving DecidableEq, Repr

/-- `MessageBuffer::getStats` (msg-buf.h lines 264–275). -/
def getStats (buf : MessageBuffer) : Stats :=
  { message_count := buf.total_messages, bytes_used := buf.total_bytes,
    dedupe_count := buf.dedupe_count,
    shard_sizes := buf.shards.map (·.count) }

/-- `MessageBuffer::clear` (msg-buf.h lines 284–298). -/
def clear (buf : MessageBuffer) : MessageBuffer :=
  { buf with
    shards := buf.shards.map (fun _ => {}),
    total_bytes := 0, total_messages := 0, dedupe_count := 0 }

/-- One observable `MessageBuffer` operation, for stating state invariants
over arbitrary operation sequences. -/
inductive BufOp
  | app (hash : Nat) (msg : BTreeMessage)
  | evi (flushed : List BTreeMessage)
  | clr

/-- Apply one `BufOp`. -/
def applyOp (buf : MessageBuffer) : BufOp → MessageBuffer
  | .app hash msg => append buf hash msg
  | .evi flushed => evict buf flushed
  | .clr => clear buf

/-- Apply a sequence of `BufOp`s in order. -/
def applyOps (buf : MessageBuffer) (ops : List BufOp) : MessageBuffer :=
  ops.foldl applyOp buf

end MessageBuffer

-- ===========================================================================
-- Latest-By-ID claims.
-- ===========================================================================

/-- Buffer location carrying epoch 5. -/
def locEpoch5 : VectorLocation := { type := .BUFFER, epoch := 5 }

/-- Buffer location carrying epoch 3 (lower than `locEpoch5`). -/
def locEpoch3 : VectorLocation := { type := .BUFFER, epoch := 3 }

/-- C1, counterexample: `upsert` is not last-writer-wins by epoch.  With
epoch 5 stored for hash 1, an upsert carrying the strictly lower epoch 3
replaces the stored location (the claim requires it to be ignored), so the
held location carries epoch 3, not the maximum epoch 5. -/
theorem upsert_lower_epoch_overwrites_cex :
    ((LatestByIdMap.empty.upsert "a" 1 locEpoch5).upsert "a" 1 locEpoch3).getLatestByHash 1
        = some locEpoch3
      ∧ locEpoch3.epoch < locEpoch5.epoch := by
  exact ⟨rfl, by decide⟩

/-- C1 (amended): `LatestByIdMap::upsert` overwrites unconditionally —
`updateEntry` performs no epoch comparison — so after `upsert id h loc` the
location held for `h` is exactly `loc`; the directory holds the location of
the last upsert, whatever its epoch, not the maximum-epoch one. -/
theorem upsert_unconditionally_overwrites (m : LatestByIdMap) (id : String)
    (id_hash : Nat) (location : VectorLocation) :
    (m.upsert id id_hash location).getLatestByHash id_hash = some location := by
  unfold LatestByIdMap.upsert LatestByIdMap.getLatestByHash
  cases h : m.id_map.lookup id_hash with
  | some e => simp [h, lookup_setKey_self, LatestByIdMap.updateEntry]
  | none => simp [h, lookup_setKey_self]

/-- Entry location rewritten to the flush target `segment_id`/`epoch`. -/
def MovedTo (segment_id : String) (epoch : Nat) (e : Entry) : Prop :=
  e.location.type = .SEGMENT ∧ e.location.segment_id = segment_id
    ∧ e.location.epoch = epoch

instance (segment_id : String) (epoch : Nat) (e : Entry) :
    Decidable (MovedTo segment_id epoch e) := by
  unfold MovedTo
  infer_instance

/-- Helper: `moveToSegmentStep` never touches the secondary string index. -/
theorem moveToSegmentStep_id_to_hash (seg : String) (ep : Nat)
    (acc : LatestByIdMap) (id : String) :
    (LatestByIdMap.moveToSegmentStep seg ep acc id).id_to_hash = acc.id_to_hash := by
  unfold LatestByIdMap.moveToSegmentStep
  cases h1 : acc.id_to_hash.lookup id with
  | none => rfl
  | some h =>
    cases h2 : acc.id_map.lookup h with
    | none => simp [h2]
    | some e => simp [h2]

/-- Helper: `moveToSegmentStep` never adds or removes primary-map keys. -/
theorem moveToSegmentStep_lookup_isSome (seg : String) (ep : Nat)
    (acc : LatestByIdMap) (id : String) (h : Nat) :
    ((LatestByIdMap.moveToSegmentStep seg ep acc id).id_map.lookup h).isSome
      = (acc.id_map.lookup h).isSome := by
  unfold LatestByIdMap.moveToSegmentStep
  cases h1 : acc.id_to_hash.lookup id with
  | none => rfl
  | some h' =>
    cases h2 : acc.id_map.lookup h' with
    | none => simp [h2]
    | some e =>
      simp only [h2]
      by_cases hhh : h = h'
      · subst hhh
        simp [lookup_setKey_self, h2]
      · simp [lookup_setKey_ne _ _ _ _ hhh]

/-- Helper: once an entry has been rewritten to the flush target, later
`moveToSegmentStep`s keep it at the flush target. -/
theorem moveToSegmentStep_preserves_moved (seg : String) (ep : Nat)
    (acc : LatestByIdMap) (id : String) (h : Nat) (e : Entry)
    (hl : acc.id_map.lookup h = some e) (hm : MovedTo seg ep e) :
    ∃ e', (LatestByIdMap.moveToSegmentStep seg ep acc id).id_map.lookup h = some e'
      ∧ MovedTo seg ep e' := by
  unfold LatestByIdMap.moveToSegmentStep
  cases h1 : acc.id_to_hash.lookup id with
  | none => exact ⟨e, hl, hm⟩
  | some h' =>
    cases h2 : acc.id_map.lookup h' with
    | none =>
      simp only [h2]
      exact ⟨e, hl, hm⟩
    | some e'' =>
      simp only [h2]
      by_cases hhh : h = h'
      · subst hhh
        refine ⟨_, lookup_setKey_self _ _ _, ?_⟩
        exact ⟨rfl, rfl, rfl⟩
      · rw [lookup_setKey_ne _ _ _ _ hhh]
        exact ⟨e, hl, hm⟩

/-- Helper: processing an id rewrites its entry to the flush target. -/
theorem moveToSegmentStep_moves (seg : String) (ep : Nat)
    (acc : LatestByIdMap) (id : String) (h : Nat) (e : Entry)
    (h1 : acc.id_to_hash.lookup id = some h)
    (h2 : acc.id_map.lookup h = some e) :
    ∃ e', (LatestByIdMap.moveToSegmentStep seg ep acc id).id_map.lookup h = some e'
      ∧ MovedTo seg ep e' := by
  unfold LatestByIdMap.moveToSegmentStep
  simp only [h1, h2]
  refine ⟨_, lookup_setKey_self _ _ _, ?_⟩
  exact ⟨rfl, rfl, rfl⟩

/-- Helper: the whole fold preserves already-moved entries. -/
theorem moveToSegment_fold_preserves_moved (seg : String) (ep : Nat)
    (ids : List String) :
    ∀ (acc : LatestByIdMap) (h : Nat) (e : Entry),
      acc.id_map.lookup h = some e → MovedTo seg ep e →
      ∃ e', (ids.foldl (LatestByIdMap.moveToSegmentStep seg ep) acc).id_map.lookup h
          = some e' ∧ MovedTo seg ep e' := by
  induction ids with
  | nil => exact fun acc h e hl hm => ⟨e, hl, hm⟩
  | cons a rest ih =>
    intro acc h e hl hm
    obtain ⟨e', hl', hm'⟩ := moveToSegmentStep_preserves_moved seg ep acc a h e hl hm
    exact ih _ h e' hl' hm'

/-- C2, counterexample: `moveToSegment` is not epoch-gated.  Hash 1 holds a
Buffer location with epoch 10; a flush with epoch 5 must, per the claim,
leave it unchanged (10 > 5), yet the code rewrites it to a Segment location
with epoch 5. -/
theorem moveToSegment_ignores_epoch_gate_cex :
    ((LatestByIdMap.empty.upsert "a" 1 { type := .BUFFER, epoch := 10 }).moveToSegment
        ["a"] "s1" 5).getLatestByHash 1
        = some { type := .SEGMENT, segment_id := "s1", epoch := 5 }
      ∧ ((LatestByIdMap.empty.upsert "a" 1 { type := .BUFFER, epoch := 10 }).moveToSegment
        ["a"] "s1" 5).getLatestByHash 1
        ≠ some { type := .BUFFER, epoch := 10 } := by
  exact ⟨rfl, by decide⟩

/-- C2 (amended): `moveToSegment` is unconditional — for every id in the list
found in both indexes, the stored location's type becomes SEGMENT with the
new `segment_id` and `epoch`, regardless of the previous location type or of
any comparison between the stored epoch and the flush epoch (ids absent from
the directory are skipped). -/
theorem moveToSegment_moves_unconditionally (m : LatestByIdMap)
    (ids : List String) (segment_id : String) (epoch : Nat) (id : String)
    (h : Nat) (hmem : id ∈ ids) (h1 : m.id_to_hash.lookup id = some h)
    (h2 : (m.id_map.lookup h).isSome) :
    ∃ e', (m.moveToSegment ids segment_id epoch).id_map.lookup h = some e'
      ∧ MovedTo segment_id epoch e' := by
  induction ids generalizing m with
  | nil => cases hmem
  | cons a rest ih =>
    unfold LatestByIdMap.moveToSegment at *
    rw [List.foldl_cons]
    rcases List.mem_cons.mp hmem with rfl | hmem'
    · obtain ⟨e, he⟩ := Option.isSome_iff_exists.mp h2
      obtain ⟨e', he', hm'⟩ := moveToSegmentStep_moves segment_id epoch m id h e h1 he
      exact moveToSegment_fold_preserves_moved segment_id epoch rest _ h e' he' hm'
    · refine ih (LatestByIdMap.moveToSegmentStep segment_id epoch m a) hmem' ?_ ?_
      · rw [moveToSegmentStep_id_to_hash]
        exact h1
      · rw [moveToSegmentStep_lookup_isSome]
        exact h2

/-- Witness for C2's amended theorem at a concrete input: a single stored
Buffer entry with epoch 10, moved by a flush with epoch 5. -/
theorem moveToSegment_moves_unconditionally_witness :
    ∃ e', ((LatestByIdMap.empty.upsert "a" 1 { type := .BUFFER, epoch := 10 }).moveToSegment
        ["a"] "s1" 5).id_map.lookup 1 = some e' ∧ MovedTo "s1" 5 e' :=
  moveToSegment_moves_unconditionally _ ["a"] "s1" 5 "a" 1
    (List.mem_singleton.mpr rfl) rfl rfl

/-- C8: `exists(id)` returns true exactly when the directory holds a location
for the id and that location is not tombstoned; absent ids and tombstoned
locations yield false. -/
theorem existsId_iff_present_not_tombstoned (m : LatestByIdMap) (id : String) :
    m.existsId id = true
      ↔ ∃ location, m.getLatest id = some location ∧ location.tombstone = false := by
  unfold LatestByIdMap.existsId
  cases h : m.getLatest id with
  | none => simp
  | some location => simp [Bool.not_eq_true']

-- ===========================================================================
-- Message Buffer claims.
-- ===========================================================================

/-- C9: the buffer's estimated message size is the fixed per-record overhead
(`sizeof(BTreeMessage)`) plus vector length times 4 bytes, plus the byte
lengths of the id, tenant and namespace strings, plus the tag count times 4
bytes. -/
theorem estimateSize_formula (msg : BTreeMessage) :
    MessageBuffer.estimateSize msg
      = MessageBuffer.sizeofBTreeMessage
        + msg.entry.vector.length * 4
        + msg.entry.id.length
        + msg.entry.tenant.length
        + msg.entry.namespace_id.length
        + msg.entry.tags.length * 4 := rfl

/-- C10: `sliceForLeaf` never consults its `leaf_id` argument — it iterates
the shards round-robin — so two calls on the same buffer state with the same
`max_batch` and any two leaf ids return equal message lists. -/
theorem sliceForLeaf_ignores_leaf_id (buf : MessageBuffer)
    (leaf_a leaf_b max_batch : Nat) :
    buf.sliceForLeaf leaf_a max_batch = buf.sliceForLeaf leaf_b max_batch := rfl

/-- Configuration whose byte budget is already exhausted: every append hits
the backpressure path. -/
def cfgFull : Config := { max_bytes := 0 }

/-- Concrete UPSERT message (estimated size 219 bytes). -/
def msgA : BTreeMessage :=
  { op := .UPSERT,
    entry := { id := "a", id_hash := 1, vector := [], tenant := "t",
               namespace_id := "n", tags := [] },
    epoch := 1, timestamp := 0 }

/-- C5: at the failing input — a buffer whose byte budget cannot admit the
message — `append` returns with the buffer state exactly as before the call
(no queue, byte-counter or message-count mutation), but the C++ function
returns void, so no BufferFull error reaches the caller; the only effect is a
log warning (the source comment "Trigger flush through callback or return
error" marks the unimplemented error return the claim and spec describe). -/
theorem append_timeout_drops_silently :
    MessageBuffer.append (MessageBuffer.mkBuffer cfgFull none) 1 msgA
      = MessageBuffer.mkBuffer cfgFull none := rfl

/-- Helper: a non-admitting `append` (guard over budget) is the identity. -/
theorem append_over_budget_id (buf : MessageBuffer) (hash : Nat) (msg : BTreeMessage)
    (hfull : buf.total_bytes + MessageBuffer.estimateSize msg > buf.config.max_bytes) :
    buf.append hash msg = buf := by
  simp only [MessageBuffer.append]
  rw [if_pos hfull]

/-- Helper: `append` keeps the byte counter within the configured cap. -/
theorem append_byte_cap (buf : MessageBuffer) (hash : Nat) (msg : BTreeMessage)
    (hb : buf.total_bytes ≤ buf.config.max_bytes) :
    (buf.append hash msg).total_bytes ≤ (buf.append hash msg).config.max_bytes := by
  simp only [MessageBuffer.append]
  by_cases hc : buf.total_bytes + MessageBuffer.estimateSize msg > buf.config.max_bytes
  · rw [if_pos hc]
    exact hb
  · rw [if_neg hc]
    cases h : buf.shards[MessageBuffer.getShardIndex buf.config hash]? with
    | none => exact hb
    | some shard =>
      simp only [h]
      exact Nat.le_of_not_lt hc

/-- Helper: each eviction step only lowers the byte counter. -/
theorem evictStep_byte_cap (b : MessageBuffer) (msg : BTreeMessage)
    (hb : b.total_bytes ≤ b.config.max_bytes) :
    (MessageBuffer.evictStep b msg).total_bytes
      ≤ (MessageBuffer.evictStep b msg).config.max_bytes := by
  unfold MessageBuffer.evictStep
  cases h : b.shards[MessageBuffer.getShardIndex b.config msg.entry.id_hash]? with
  | none => exact hb
  | some shard =>
    simp only [h]
    cases hm : shard.messages with
    | nil => exact hb
    | cons front rest =>
      exact le_trans (Nat.sub_le _ _) hb

/-- Helper: `evict` keeps the byte counter within the cap. -/
theorem evict_byte_cap (flushed : List BTreeMessage) :
    ∀ b : MessageBuffer, b.total_bytes ≤ b.config.max_bytes →
      (b.evict flushed).total_bytes ≤ (b.evict flushed).config.max_bytes := by
  induction flushed with
  | nil => exact fun b hb => hb
  | cons msg rest ih =>
    intro b hb
    exact ih (MessageBuffer.evictStep b msg) (evictStep_byte_cap b msg hb)

/-- Helper: every single buffer operation keeps the byte counter within the
cap. -/
theorem applyOp_byte_cap (b : MessageBuffer) (op : MessageBuffer.BufOp)
    (hb : b.total_bytes ≤ b.config.max_bytes) :
    (MessageBuffer.applyOp b op).total_bytes
      ≤ (MessageBuffer.applyOp b op).config.max_bytes := by
  cases op with
  | app hash msg => exact append_byte_cap b hash msg hb
  | evi flushed => exact evict_byte_cap flushed b hb
  | clr => exact Nat.zero_le _

/-- C4: the byte cap is an invariant.  From any state within the cap, every
sequence of observable operations (append / evict / clear) keeps the byte
counter within the configured `max_bytes` — so the cap holds at every
observable instant — and a message whose admission would exceed the cap is
never admitted: such an `append` leaves the buffer state untouched. -/
theorem buffer_byte_cap_invariant (buf : MessageBuffer)
    (ops : List MessageBuffer.BufOp) (hash : Nat) (msg : BTreeMessage)
    (hinv : buf.total_bytes ≤ buf.config.max_bytes) :
    (MessageBuffer.applyOps buf ops).total_bytes
        ≤ (MessageBuffer.applyOps buf ops).config.max_bytes
      ∧ (buf.total_bytes + MessageBuffer.estimateSize msg > buf.config.max_bytes →
          buf.append hash msg = buf) := by
  constructor
  · unfold MessageBuffer.applyOps
    induction ops generalizing buf with
    | nil => exact hinv
    | cons op rest ih =>
      rw [List.foldl_cons]
      exact ih (MessageBuffer.applyOp buf op) (applyOp_byte_cap buf op hinv)
  · exact append_over_budget_id buf hash msg

/-- First upsert of id "v1" (hash 5), epoch 1; estimated size 220 bytes. -/
def msgV1 : BTreeMessage :=
  { op := .UPSERT,
    entry := { id := "v1", id_hash := 5, vector := [], tenant := "t",
               namespace_id := "n", tags := [] },
    epoch := 1, timestamp := 1 }

/-- Second upsert of id "v1", epoch 2. -/
def msgV2 : BTreeMessage := { msgV1 with epoch := 2, timestamp := 2 }

/-- Third upsert of id "v1", epoch 3. -/
def msgV3 : BTreeMessage := { msgV1 with epoch := 3, timestamp := 3 }

/-- The buffer after appending the same id three times (default config) —
the spec's dedup scenario. -/
def bufV3 : MessageBuffer :=
  (((MessageBuffer.mkBuffer {} none).append 5 msgV1).append 5 msgV2).append 5 msgV3

/-- C3, counterexample: after appending the same id three times before a
flush, the buffer does hold three queue entries, but `sliceForLeaf` returns
three messages (not exactly one), and each carries epoch 1 — the oldest, not
the latest — because nothing is marked superseded and the slice loop reads
the front message `to_take` times without popping. -/
theorem slice_returns_duplicates_cex :
    bufV3.total_messages = 3
      ∧ (bufV3.sliceForLeaf 0 10).length = 3
      ∧ (bufV3.sliceForLeaf 0 10).map (fun m => m.epoch) = [1, 1, 1] :=
  ⟨rfl, rfl, rfl⟩

/-- C3 (amended): deduplication supersedes nothing and drops nothing — an
admitted append leaves every prior queue entry in the shard FIFO and appends
the new message at the back (only the dedup counter and dedup-map pointer
change); neither `sliceForLeaf` nor `scanForQuery` skips prior entries, so
after appending the same id three times the buffer holds three queue entries,
the dedup counter reads 2, and `sliceForLeaf` returns three messages, each a
copy of the oldest entry. -/
theorem dedupe_retains_prior_amended :
    (∀ (buf : MessageBuffer) (hash : Nat) (msg : BTreeMessage) (shard : Shard),
        buf.total_bytes + MessageBuffer.estimateSize msg ≤ buf.config.max_bytes →
        buf.shards[MessageBuffer.getShardIndex buf.config hash]? = some shard →
        ∃ shard',
          (buf.append hash msg).shards[MessageBuffer.getShardIndex buf.config hash]?
              = some shard'
            ∧ shard'.messages = shard.messages ++ [msg])
      ∧ bufV3.dedupe_count = 2
      ∧ bufV3.sliceForLeaf 0 10 = [msgV1, msgV1, msgV1] := by
  refine ⟨?_, rfl, rfl⟩
  intro buf hash msg shard hadm hs
  have hlen : MessageBuffer.getShardIndex buf.config hash < buf.shards.length := by
    by_contra hc
    rw [List.getElem?_eq_none (Nat.le_of_not_lt hc)] at hs
    cases hs
  simp only [MessageBuffer.append]
  rw [if_neg (Nat.not_lt.mpr hadm)]
  simp only [hs]
  exact ⟨_, List.getElem?_set_self hlen, rfl⟩

/-- Witness for C3's amended theorem at a concrete input: appending `msgV1`
to the fresh default buffer extends the (empty) FIFO of shard 5 by exactly
that message. -/
theorem dedupe_retains_prior_amended_witness :
    ∃ shard',
      ((MessageBuffer.mkBuffer {} none).append 5 msgV1).shards[
          MessageBuffer.getShardIndex (MessageBuffer.mkBuffer {} none).config 5]?
          = some shard'
        ∧ shard'.messages = ({} : Shard).messages ++ [msgV1] :=
  dedupe_retains_prior_amended.1 (MessageBuffer.mkBuffer {} none) 5 msgV1 {}
    (by decide) rfl

/-- Helper: setting position `i < n` of a constant list splits it around the
new value. -/
theorem replicate_set {α : Type} (n i : Nat) (a b : α) (h : i < n) :
    (List.replicate n a).set i b
      = List.replicate i a ++ b :: List.replicate (n - i - 1) a := by
  induction n generalizing i with
  | zero => exact absurd h (Nat.not_lt_zero i)
  | succ n ih =>
    cases i with
    | zero => simp [List.replicate_succ]
    | succ i =>
      have h' : i < n := Nat.lt_of_succ_lt_succ h
      simp [List.replicate_succ, Nat.succ_sub_succ, ih i h']

/-- Helper: a shard with an empty FIFO contributes nothing to a slice. -/
theorem sliceStep_empty_shard (max_batch : Nat) (result : List BTreeMessage) :
    MessageBuffer.sliceStep max_batch result {} = result := by
  unfold MessageBuffer.sliceStep
  split
  · rfl
  · rfl

/-- Helper: slicing over any run of empty shards returns the accumulator. -/
theorem slice_fold_replicate_empty (max_batch k : Nat) (acc : List BTreeMessage) :
    List.foldl (MessageBuffer.sliceStep max_batch) acc (List.replicate k {}) = acc := by
  induction k generalizing acc with
  | zero => rfl
  | succ k ih =>
    rw [List.replicate_succ, List.foldl_cons, sliceStep_empty_shard]
    exact ih acc

/-- Configuration for the two-shard round-trip counterexample. -/
def cfg2 : Config := { max_bytes := 1000000, shard_count := 2 }

/-- Message routed to shard 0 (hash 0), estimated size 218 bytes. -/
def msgShard0 : BTreeMessage :=
  { op := .UPSERT,
    entry := { id := "aa", id_hash := 0, vector := [], tenant := "",
               namespace_id := "", tags := [] },
    epoch := 1, timestamp := 0 }

/-- Message routed to shard 1 (hash 1), estimated size 217 bytes. -/
def msgShard1 : BTreeMessage :=
  { op := .UPSERT,
    entry := { id := "b", id_hash := 1, vector := [], tenant := "",
               namespace_id := "", tags := [] },
    epoch := 2, timestamp := 0 }

/-- Two-shard buffer already holding `msgShard0`: the state "before the
append" of the round-trip. -/
def preBuf : MessageBuffer := (MessageBuffer.mkBuffer cfg2 none).append 0 msgShard0

/-- `preBuf` after appending `msgShard1`. -/
def twoBuf : MessageBuffer := preBuf.append 1 msgShard1

/-- C6, counterexample: from a non-empty buffer state the round-trip does not
restore the counters.  `preBuf` holds one message (218 bytes); appending
`msgShard1` and slicing obtains a batch containing it (together with the
pre-existing message), but evicting that batch removes the pre-existing
message too, leaving 0 messages and 0 bytes instead of the pre-append values
1 and 218. -/
theorem evict_roundtrip_cex :
    twoBuf.sliceForLeaf 0 10 = [msgShard0, msgShard1]
      ∧ (MessageBuffer.getStats preBuf).message_count = 1
      ∧ (MessageBuffer.getStats preBuf).bytes_used = 218
      ∧ (MessageBuffer.getStats (twoBuf.evict (twoBuf.sliceForLeaf 0 10))).message_count = 0
      ∧ (MessageBuffer.getStats (twoBuf.evict (twoBuf.sliceForLeaf 0 10))).bytes_used = 0 :=
  ⟨rfl, rfl, rfl, rfl, rfl⟩

/-- C6 (amended): the round-trip holds from an empty buffer.  Appending one
message to a fresh buffer, slicing it back with `sliceForLeaf` (which
returns exactly that message), and evicting the sliced batch restores the
message count and byte counter to their pre-append (zero) values.  From a
non-empty state the eviction of the whole sliced batch also removes the
pre-existing messages, so the pre-append counters are not restored in
general. -/
theorem append_slice_evict_roundtrip (cfg : Config) (lbi : Option LatestByIdMap)
    (msg : BTreeMessage) (leaf_id max_batch : Nat)
    (hn : 0 < cfg.shard_count)
    (hsz : MessageBuffer.estimateSize msg ≤ cfg.max_bytes)
    (hb : 1 ≤ max_batch) :
    ((MessageBuffer.mkBuffer cfg lbi).append msg.entry.id_hash msg).sliceForLeaf
        leaf_id max_batch = [msg]
      ∧ (MessageBuffer.getStats
          (((MessageBuffer.mkBuffer cfg lbi).append msg.entry.id_hash msg).evict
            (((MessageBuffer.mkBuffer cfg lbi).append msg.entry.id_hash msg).sliceForLeaf
              leaf_id max_batch))).message_count
        = (MessageBuffer.getStats (MessageBuffer.mkBuffer cfg lbi)).message_count
      ∧ (MessageBuffer.getStats
          (((MessageBuffer.mkBuffer cfg lbi).append msg.entry.id_hash msg).evict
            (((MessageBuffer.mkBuffer cfg lbi).append msg.entry.id_hash msg).sliceForLeaf
              leaf_id max_batch))).bytes_used
        = (MessageBuffer.getStats (MessageBuffer.mkBuffer cfg lbi)).bytes_used := by
  have hidx : MessageBuffer.getShardIndex cfg msg.entry.id_hash < cfg.shard_count :=
    Nat.mod_lt _ hn
  obtain ⟨lm, lbi2, happ⟩ :
      ∃ lm lbi2,
        (MessageBuffer.mkBuffer cfg lbi).append msg.entry.id_hash msg
          = { config := cfg,
              shards := (List.replicate cfg.shard_count ({} : Shard)).set
                (MessageBuffer.getShardIndex cfg msg.entry.id_hash)
                { messages := [msg], bytes := MessageBuffer.estimateSize msg,
                  count := 1, latest_map := lm },
              latest_by_id := lbi2,
              total_bytes := MessageBuffer.estimateSize msg,
              total_messages := 1, dedupe_count := 0 } := by
    refine ⟨(if cfg.dedupe_enabled then setKey msg.entry.id_hash msg [] else []),
            (match lbi with
             | some m => some (m.upsert msg.entry.id msg.entry.id_hash
                 { type := .BUFFER, timestamp := msg.timestamp, epoch := msg.epoch,
                   tombstone := msg.op = .DELETE })
             | none => none), ?_⟩
    have hguard : ¬ ((MessageBuffer.mkBuffer cfg lbi).total_bytes
        + MessageBuffer.estimateSize msg
        > (MessageBuffer.mkBuffer cfg lbi).config.max_bytes) := by
      show ¬ (cfg.max_bytes < 0 + MessageBuffer.estimateSize msg)
      rw [Nat.zero_add]
      exact Nat.not_lt.mpr hsz
    have hshard : (MessageBuffer.mkBuffer cfg lbi).shards[
        MessageBuffer.getShardIndex (MessageBuffer.mkBuffer cfg lbi).config
          msg.entry.id_hash]? = some ({} : Shard) :=
      List.getElem?_replicate_of_lt hidx
    have hded : ¬ ((MessageBuffer.mkBuffer cfg lbi).config.dedupe_enabled = true
        ∧ ¬ msg.op = OperationType.DELETE
        ∧ (List.lookup msg.entry.id_hash ({} : Shard).latest_map).isSome = true) :=
      fun h => Bool.noConfusion h.2.2
    simp only [MessageBuffer.append]
    rw [if_neg hguard]
    simp only [hshard]
    rw [if_neg hded]
    simp [MessageBuffer.mkBuffer]
  have hslice :
      ((MessageBuffer.mkBuffer cfg lbi).append msg.entry.id_hash msg).sliceForLeaf
        leaf_id max_batch = [msg] := by
    rw [happ]
    unfold MessageBuffer.sliceForLeaf
    show List.foldl (MessageBuffer.sliceStep max_batch) []
      ((List.replicate cfg.shard_count ({} : Shard)).set
        (MessageBuffer.getShardIndex cfg msg.entry.id_hash)
        { messages := [msg], bytes := MessageBuffer.estimateSize msg,
          count := 1, latest_map := lm }) = [msg]
    rw [replicate_set _ _ _ _ hidx, List.foldl_append, slice_fold_replicate_empty,
      List.foldl_cons]
    have hstep : MessageBuffer.sliceStep max_batch []
        { messages := [msg], bytes := MessageBuffer.estimateSize msg,
          count := 1, latest_map := lm } = [msg] := by
      unfold MessageBuffer.sliceStep
      rw [if_pos (show ([] : List BTreeMessage).length < max_batch from hb)]
      simp [Nat.min_eq_right hb]
    rw [hstep]
    exact slice_fold_replicate_empty _ _ _
  refine ⟨hslice, ?_, ?_⟩
  all_goals
    rw [hslice, happ]
    unfold MessageBuffer.evict
    rw [List.foldl_cons, List.foldl_nil]
    unfold MessageBuffer.evictStep
    rw [show (((List.replicate cfg.shard_count ({} : Shard)).set
        (MessageBuffer.getShardIndex cfg msg.entry.id_hash)
        { messages := [msg], bytes := MessageBuffer.estimateSize msg,
          count := 1, latest_map := lm }))[
        MessageBuffer.getShardIndex cfg msg.entry.id_hash]?
      = some { messages := [msg], bytes := MessageBuffer.estimateSize msg,
               count := 1, latest_map := lm } from
      List.getElem?_set_self (by rw [List.length_replicate]; exact hidx)]
    simp [MessageBuffer.getStats, MessageBuffer.mkBuffer]

/-- Witness for C6's amended theorem at a concrete input: the default config
with `msgV1`. -/
theorem append_slice_evict_roundtrip_witness :
    ((MessageBuffer.mkBuffer {} none).append msgV1.entry.id_hash msgV1).sliceForLeaf 0 10
        = [msgV1]
      ∧ (MessageBuffer.getStats
          (((MessageBuffer.mkBuffer {} none).append msgV1.entry.id_hash msgV1).evict
            (((MessageBuffer.mkBuffer {} none).append msgV1.entry.id_hash msgV1).sliceForLeaf
              0 10))).message_count
        = (MessageBuffer.getStats (MessageBuffer.mkBuffer {} none)).message_count
      ∧ (MessageBuffer.getStats
          (((MessageBuffer.mkBuffer {} none).append msgV1.entry.id_hash msgV1).evict
            (((MessageBuffer.mkBuffer {} none).append msgV1.entry.id_hash msgV1).sliceForLeaf
              0 10))).bytes_used
        = (MessageBuffer.getStats (MessageBuffer.mkBuffer {} none)).bytes_used :=
  append_slice_evict_roundtrip {} none msgV1 0 10 (by decide) (by decide) (by decide)

/-- Helper: `scanShard` invariant.  Starting from a state whose result count
is bounded by its scanned count, itself bounded by `max_scan`, both bounds
are preserved, and every emitted entry either was already present or comes
from a non-DELETE message of the scanned list that passed the tenant,
namespace and tag filters (each filter applying only when the corresponding
query component is non-empty). -/
theorem scanShard_spec (tenant ns : String) (tags : List Nat) (max_scan : Nat)
    (L : List BTreeMessage) :
    ∀ st : List VectorEntry × Nat, st.1.length ≤ st.2 → st.2 ≤ max_scan →
    ((MessageBuffer.scanShard tenant ns tags max_scan L st).1.length
        ≤ (MessageBuffer.scanShard tenant ns tags max_scan L st).2)
      ∧ (MessageBuffer.scanShard tenant ns tags max_scan L st).2 ≤ max_scan
      ∧ ∀ e ∈ (MessageBuffer.scanShard tenant ns tags max_scan L st).1,
          e ∈ st.1 ∨ ∃ msg ∈ L, msg.op ≠ OperationType.DELETE ∧ e = msg.entry
            ∧ (tenant ≠ "" → msg.entry.tenant = tenant)
            ∧ (ns ≠ "" → msg.entry.namespace_id = ns)
            ∧ (tags ≠ [] → tags.any (fun tag => msg.entry.tags.contains tag) = true) := by
  induction L with
  | nil =>
    intro st h1 h2
    exact ⟨h1, h2, fun e he => Or.inl he⟩
  | cons msg rest ih =>
    rintro ⟨results, scanned⟩ h1 h2
    simp only [MessageBuffer.scanShard]
    by_cases hstop : scanned ≥ max_scan
    · rw [if_pos hstop]
      exact ⟨h1, h2, fun e he => Or.inl he⟩
    · rw [if_neg hstop]
      have h1' : results.length ≤ scanned + 1 := Nat.le_succ_of_le h1
      have h2' : scanned + 1 ≤ max_scan := Nat.succ_le_of_lt (Nat.lt_of_not_le hstop)
      have lift : ∀ st' : List VectorEntry × Nat,
          st'.1.length ≤ st'.2 → st'.2 ≤ max_scan →
          (st'.1 = results ∨ st'.1 = results ++ [msg.entry]) →
          (msg.op = OperationType.DELETE →  st'.1 = results) →
          (st'.1 = results ++ [msg.entry] →
            msg.op ≠ OperationType.DELETE
              ∧ (tenant ≠ "" → msg.entry.tenant = tenant)
              ∧ (ns ≠ "" → msg.entry.namespace_id = ns)
              ∧ (tags ≠ [] → tags.any (fun tag => msg.entry.tags.contains tag) = true)) →
          ((MessageBuffer.scanShard tenant ns tags max_scan rest st').1.length
              ≤ (MessageBuffer.scanShard tenant ns tags max_scan rest st').2)
            ∧ (MessageBuffer.scanShard tenant ns tags max_scan rest st').2 ≤ max_scan
            ∧ ∀ e ∈ (MessageBuffer.scanShard tenant ns tags max_scan rest st').1,
                e ∈ results ∨ ∃ m ∈ msg :: rest, m.op ≠ OperationType.DELETE
                  ∧ e = m.entry
                  ∧ (tenant ≠ "" → m.entry.tenant = tenant)
                  ∧ (ns ≠ "" → m.entry.namespace_id = ns)
                  ∧ (tags ≠ [] → tags.any (fun tag => m.entry.tags.contains tag) = true) := by
        intro st' ha hbnd hcases _ hem
        obtain ⟨a, b, c⟩ := ih st' ha hbnd
        refine ⟨a, b, fun e he => ?_⟩
        rcases c e he with hin | ⟨m, hm, hrest⟩
        · rcases hcases with heq | heq
          · exact Or.inl (heq ▸ hin)
          · rw [heq] at hin
            rcases List.mem_append.mp hin with hin' | hin'
            · exact Or.inl hin'
            · obtain ⟨hop, hten, hns, htag⟩ := hem heq
              have : e = msg.entry := List.mem_singleton.mp hin'
              exact Or.inr ⟨msg, List.mem_cons_self msg rest, hop, this, hten, hns, htag⟩
        · exact Or.inr ⟨m, List.mem_cons_of_mem msg hm, hrest⟩
      by_cases hdel : msg.op = OperationType.DELETE
      · rw [if_pos hdel]
        exact lift (results, scanned + 1) h1' h2' (Or.inl rfl) (fun _ => rfl)
          (fun habs => absurd habs (by simp))
      · rw [if_neg hdel]
        by_cases hten : tenant ≠ "" ∧ msg.entry.tenant ≠ tenant
        · rw [if_pos hten]
          exact lift (results, scanned + 1) h1' h2' (Or.inl rfl) (fun _ => rfl)
            (fun habs => absurd habs (by simp))
        · rw [if_neg hten]
          by_cases hns : ns ≠ "" ∧ msg.entry.namespace_id ≠ ns
          · rw [if_pos hns]
            exact lift (results, scanned + 1) h1' h2' (Or.inl rfl) (fun _ => rfl)
              (fun habs => absurd habs (by simp))
          · rw [if_neg hns]
            by_cases htag : tags ≠ []
                ∧ ¬ tags.any (fun tag => msg.entry.tags.contains tag) = true
            · rw [if_pos htag]
              exact lift (results, scanned + 1) h1' h2' (Or.inl rfl) (fun _ => rfl)
                (fun habs => absurd habs (by simp))
            · rw [if_neg htag]
              refine lift (results ++ [msg.entry], scanned + 1) ?_ h2'
                (Or.inr rfl) (fun hd => absurd hd hdel) (fun _ => ⟨hdel, ?_, ?_, ?_⟩)
              · rw [List.length_append, List.length_singleton]
                exact Nat.succ_le_succ h1
              · exact fun ht => not_not.mp (fun hne => hten ⟨ht, hne⟩)
              · exact fun hn => not_not.mp (fun hne => hns ⟨hn, hne⟩)
              · exact fun ht => not_not.mp (fun hne => htag ⟨ht, hne⟩)

/-- Helper: folding `scanShard` over a shard list keeps the bounds and traces
every emitted entry to a message of one of the shards. -/
theorem scan_fold_spec (tenant ns : String) (tags : List Nat) (max_scan : Nat)
    (shards : List Shard) :
    ∀ st : List VectorEntry × Nat, st.1.length ≤ st.2 → st.2 ≤ max_scan →
    ((shards.foldl
        (fun st shard => MessageBuffer.scanShard tenant ns tags max_scan shard.messages st)
        st).1.length
        ≤ (shards.foldl
            (fun st shard => MessageBuffer.scanShard tenant ns tags max_scan shard.messages st)
            st).2)
      ∧ (shards.foldl
          (fun st shard => MessageBuffer.scanShard tenant ns tags max_scan shard.messages st)
          st).2 ≤ max_scan
      ∧ ∀ e ∈ (shards.foldl
            (fun st shard => MessageBuffer.scanShard tenant ns tags max_scan shard.messages st)
            st).1,
          e ∈ st.1 ∨ ∃ shard ∈ shards, ∃ msg ∈ shard.messages,
            msg.op ≠ OperationType.DELETE ∧ e = msg.entry
            ∧ (tenant ≠ "" → msg.entry.tenant = tenant)
            ∧ (ns ≠ "" → msg.entry.namespace_id = ns)
            ∧ (tags ≠ [] → tags.any (fun tag => msg.entry.tags.contains tag) = true) := by
  induction shards with
  | nil =>
    intro st h1 h2
    exact ⟨h1, h2, fun e he => Or.inl he⟩
  | cons shard rest ih =>
    intro st h1 h2
    rw [List.foldl_cons]
    obtain ⟨a1, a2, a3⟩ := scanShard_spec tenant ns tags max_scan shard.messages st h1 h2
    obtain ⟨b1, b2, b3⟩ :=
      ih (MessageBuffer.scanShard tenant ns tags max_scan shard.messages st) a1 a2
    refine ⟨b1, b2, fun e he => ?_⟩
    rcases b3 e he with hin | ⟨sh, hsh, m, hm, hrest⟩
    · rcases a3 e hin with hin' | ⟨m, hm, hrest⟩
      · exact Or.inl hin'
      · exact Or.inr ⟨shard, List.mem_cons_self shard rest, m, hm, hrest⟩
    · exact Or.inr ⟨sh, List.mem_cons_of_mem shard hsh, m, hm, hrest⟩

/-- Buffer holding one non-DELETE message whose tenant is "t". -/
def bufScan : MessageBuffer := (MessageBuffer.mkBuffer {} none).append 5 msgV1

/-- C7, counterexample: scanning with an empty query tenant returns an entry
whose tenant is "t", which does not equal the query tenant — the tenant
filter (and likewise the namespace filter) only applies when the query
string is non-empty, so "tenant equals the query tenant exactly" fails; no
superseded marking exists to skip either. -/
theorem scan_empty_tenant_filter_cex :
    MessageBuffer.scanForQuery bufScan [] "" "" [] 10 = [msgV1.entry]
      ∧ msgV1.entry.tenant ≠ "" :=
  ⟨rfl, by decide⟩

/-- C7 (amended): every entry returned by `scanForQuery` comes from a
non-Delete message; when the query tenant is non-empty the message's tenant
equals it exactly, when the query namespace is non-empty the message's
namespace equals it exactly, and when the query tag set is non-empty the
message's tag set intersects it; the result holds at most `max_scan`
entries.  (Empty query tenant or namespace disables that filter, and no
"superseded" marking exists to be skipped.) -/
theorem scanForQuery_filter (buf : MessageBuffer) (query : List Float)
    (tenant ns : String) (tags : List Nat) (max_scan : Nat) :
    (buf.scanForQuery query tenant ns tags max_scan).length ≤ max_scan
      ∧ ∀ e ∈ buf.scanForQuery query tenant ns tags max_scan,
          ∃ shard ∈ buf.shards, ∃ msg ∈ shard.messages,
            msg.op ≠ OperationType.DELETE ∧ e = msg.entry
            ∧ (tenant ≠ "" → msg.entry.tenant = tenant)
            ∧ (ns ≠ "" → msg.entry.namespace_id = ns)
            ∧ (tags ≠ [] → tags.any (fun tag => msg.entry.tags.contains tag) = true) := by
  obtain ⟨a, b, c⟩ := scan_fold_spec tenant ns tags max_scan buf.shards ([], 0)
    (Nat.le_refl 0) (Nat.zero_le _)
  refine ⟨le_trans a b, fun e he => ?_⟩
  rcases c e he with h | h
  · cases h
  · exact h

/-- Witness for C7's amended theorem at a concrete input: the singleton
buffer `bufScan` scanned with empty filters. -/
theorem scanForQuery_filter_witness :
    (MessageBuffer.scanForQuery bufScan [] "" "" [] 10).length ≤ 10
      ∧ ∃ shard ∈ bufScan.shards, ∃ msg ∈ shard.messages,
          msg.op ≠ OperationType.DELETE ∧ msgV1.entry = msg.entry
          ∧ ("" ≠ "" → msg.entry.tenant = "")
          ∧ ("" ≠ "" → msg.entry.namespace_id = "")
          ∧ (([] : List Nat) ≠ []
              → ([] : List Nat).any (fun tag => msg.entry.tags.contains tag) = true) :=
  ⟨(scanForQuery_filter bufScan [] "" "" [] 10).1,
   (scanForQuery_filter bufScan [] "" "" [] 10).2 msgV1.entry
     (List.mem_singleton.mpr rfl)⟩

/-- Witness for C4 at a concrete input: a zero-budget buffer, one attempted
append; the counter stays at 0 ≤ 0 and the over-budget append is dropped. -/
theorem buffer_byte_cap_invariant_witness :
    ((MessageBuffer.applyOps (MessageBuffer.mkBuffer cfgFull none)
          [MessageBuffer.BufOp.app 1 msgA]).total_bytes
        ≤ (MessageBuffer.applyOps (MessageBuffer.mkBuffer cfgFull none)
          [MessageBuffer.BufOp.app 1 msgA]).config.max_bytes)
      ∧ MessageBuffer.append (MessageBuffer.mkBuffer cfgFull none) 1 msgA
          = MessageBuffer.mkBuffer cfgFull none :=
  ⟨(buffer_byte_cap_invariant (MessageBuffer.mkBuffer cfgFull none)
      [MessageBuffer.BufOp.app 1 msgA] 1 msgA (by decide)).1,
   (buffer_byte_cap_invariant (MessageBuffer.mkBuffer cfgFull none)
      [MessageBuffer.BufOp.app 1 msgA] 1 msgA (by decide)).2 (by decide)⟩
